import Mathlib

/-!
Verification of the rlox tree-walking Lox interpreter (Rust) against its
specification. The Rust sources are embedded shallowly: `Rc<RefCell<_>>`
heap values (environments, class instances) become indices into explicit
heaps threaded through the evaluator, `HashMap` becomes an association
list with replace-on-insert, `f64` becomes `ℚ`, and the recursive
evaluator takes a fuel parameter (running out of fuel models
non-termination, a separate outcome from errors and from panics).
-/

namespace RLox

/-- Association-list insert with `HashMap::insert` semantics: replace the
binding in place when the key is present, else append. -/
def insertAssoc {α : Type} (m : List (String × α)) (k : String) (v : α) :
    List (String × α) :=
  match m with
  | [] => [(k, v)]
  | (k', v') :: rest =>
      if k' = k then (k, v) :: rest else (k', v') :: insertAssoc rest k v

/-- Association-list lookup (`HashMap::get`). -/
def lookupAssoc {α : Type} (m : List (String × α)) (k : String) : Option α :=
  match m with
  | [] => none
  | (k', v') :: rest => if k' = k then some v' else lookupAssoc rest k

/-- Lookup in a `Nat`-keyed association list (the interpreter's `locals`
side table, which the Rust code keys by the expression's `uid` through
`Expr`'s uid-based `Hash`/`PartialEq` impls). -/
def lookupNatAssoc {α : Type} (m : List (Nat × α)) (k : Nat) : Option α :=
  match m with
  | [] => none
  | (k', v') :: rest => if k' = k then some v' else lookupNatAssoc rest k

/-- Insert into the `Nat`-keyed association list, replacing an existing
binding (`HashMap::insert`). -/
def insertNatAssoc {α : Type} (m : List (Nat × α)) (k : Nat) (v : α) :
    List (Nat × α) :=
  match m with
  | [] => [(k, v)]
  | (k', v') :: rest =>
      if k' = k then (k, v) :: rest else (k', v') :: insertNatAssoc rest k v

/-- `TokenType` from src/token.rs. The source's enum there omits
`Question`, `Colon` and a `break` kind, but src/scanner.rs emits
`Question`/`Colon` and src/parser.rs matches on `TokenType::Break`, so the
type those files compile against has all three; they are included here
(`breakKw` is the dedicated break reserved-word kind of claim C9). -/
inductive TokenType where
  | leftParen | rightParen | leftBrace | rightBrace
  | comma | dot | minus | plus | semicolon | slash | star
  | question | colon
  | bang | bangEqual | equal | equalEqual
  | greater | greaterEqual | less | lessEqual
  | identifier | stringLit | numberLit
  | andKw | classKw | elseKw | falseKw | funKw | forKw | ifKw | nilKw
  | orKw | printKw | returnKw | superKw | thisKw | trueKw | varKw
  | whileKw | breakKw
  | eof
  deriving DecidableEq, Repr

/-- The scalar literal attached to a token (src/token.rs declares its own
scalar-only `Object` enum with exactly these variants for the `literal`
field). `f64` is modelled as `ℚ`. -/
inductive LitValue where
  | str (s : String)
  | num (q : ℚ)
  | boolean (b : Bool)
  | nilV
  deriving DecidableEq, Repr

/-- `Token` from src/token.rs. -/
structure Token where
  token_type : TokenType
  lexeme : String
  literal : LitValue
  line : Nat
  deriving DecidableEq, Repr

/-- `Token::is` from src/token.rs. -/
def Token.is (t : Token) (ty : TokenType) : Bool := t.token_type = ty

mutual
/-- `Expr` from src/expr.rs. Every variant carries the parse-time `uid`.
`LiteralExpr.value` is stored in the source as the runtime `Object`; the
only values ever placed there are the scanner's scalar literals, embedded
here as `LitValue` (converted to a runtime object by the literal case of
the evaluator). -/
inductive Expr where
  | assign (uid : Nat) (name : Token) (value : Expr)
  | binary (uid : Nat) (left : Expr) (operator : Token) (right : Expr)
  | call (uid : Nat) (callee : Expr) (paren : Token) (arguments : List Expr)
  | get (uid : Nat) (object : Expr) (name : Token)
  | grouping (uid : Nat) (expression : Expr)
  | literal (uid : Nat) (value : LitValue)
  | logical (uid : Nat) (left : Expr) (operator : Token) (right : Expr)
  | set (uid : Nat) (object : Expr) (name : Token) (value : Expr)
  | thisE (uid : Nat) (keyword : Token)
  | superE (uid : Nat) (keyword : Token) (method : Token)
  | unary (uid : Nat) (operator : Token) (right : Expr)
  | ternary (uid : Nat) (condition : Expr) (then_branch : Expr)
      (else_branch : Expr)
  | variable (uid : Nat) (name : Token)

/-- `Stmt` from src/stmt.rs. -/
inductive Stmt where
  | block (statements : List Stmt)
  | classS (name : Token) (super_class : Option Expr) (methods : List Stmt)
  | expression (e : Expr)
  | functionS (name : Token) (params : List Token) (body : List Stmt)
  | ifS (condition : Expr) (then_branch : Stmt) (else_branch : Option Stmt)
  | print (e : Expr)
  | returnS (keyword : Token) (value : Option Expr)
  | varS (name : Token) (initializer : Option Expr)
  | whileS (condition : Expr) (body : Stmt)
  | breakS (keyword : Token)
end

/-- `Expr::get_uid` from src/expr.rs (the key of the resolver's side
table: `PartialEq`/`Hash` for `Expr` compare only this). -/
def Expr.uid : Expr → Nat
  | .assign u _ _ => u
  | .binary u _ _ _ => u
  | .call u _ _ _ => u
  | .get u _ _ => u
  | .grouping u _ => u
  | .literal u _ => u
  | .logical u _ _ _ => u
  | .set u _ _ _ => u
  | .thisE u _ => u
  | .superE u _ _ => u
  | .unary u _ _ => u
  | .ternary u _ _ _ => u
  | .variable u _ => u

/-- `FunctionStmt` (src/stmt.rs), the declaration stored inside a
`LoxFunction`. -/
structure FunctionDecl where
  name : Token
  params : List Token
  body : List Stmt

mutual
/-- `Object` from src/object.rs. Heap values: a `LoxFunction` holds its
closure as an environment-heap index, a class instance is an index into
the instance heap (the `Rc<RefCell<LoxInstance>>` of the source), so
"same identity" is "same index". A native function carries only its name
and declared arity (the host callback is not modelled). -/
inductive Object where
  | string (s : String)
  | number (q : ℚ)
  | boolean (b : Bool)
  | function (f : LoxFunction)
  | nativeFunction (name : String) (arity : Nat)
  | classO (c : LoxClass)
  | classInstance (r : Nat)
  | nil

/-- `LoxFunction` from src/lox_function.rs. -/
inductive LoxFunction where
  | mk (declaration : FunctionDecl) (closure : Nat) (is_initializer : Bool)

/-- `LoxClass` from src/lox_class.rs. -/
inductive LoxClass where
  | mk (name : String) (super_class : Option LoxClass)
      (methods : List (String × LoxFunction))
end

def LoxFunction.declaration : LoxFunction → FunctionDecl
  | .mk d _ _ => d

def LoxFunction.closure : LoxFunction → Nat
  | .mk _ c _ => c

def LoxFunction.is_initializer : LoxFunction → Bool
  | .mk _ _ i => i

def LoxClass.name : LoxClass → String
  | .mk n _ _ => n

def LoxClass.methods : LoxClass → List (String × LoxFunction)
  | .mk _ _ m => m

/-- `LoxClass::find_method` from src/lox_class.rs (searches only the
class's own method map; the source does not walk the superclass). -/
def LoxClass.find_method (c : LoxClass) (name : String) :
    Option LoxFunction :=
  lookupAssoc c.methods name

/-- `LoxInstance` from src/lox_instance.rs (the data behind one
`Rc<RefCell<LoxInstance>>`). -/
structure LoxInstanceData where
  klass : LoxClass
  fields : List (String × Object)

/-- The scalar literal as a runtime object (`visit_literal_expr` clones
the stored `Object`; the stored literals are exactly the scalars). -/
def LitValue.toObject : LitValue → Object
  | .str s => .string s
  | .num q => .number q
  | .boolean b => .boolean b
  | .nilV => .nil

/-- `LoxErrorResult`, the error-or-signal sum the src interpreter,
environment and callables match on (`LoxErrorResult::Interpreter { line,
message }` and `LoxErrorResult::ControlFlowReturn { value }` appear in
src; the enum itself is in a part of the repository not under src —
src/error.rs holds an earlier `LoxError` struct whose `ErrorType` carries
the same tags). Modelled from the spec §7 taxonomy plus those usages;
lexical/parse/resolver errors travel through other channels here. -/
inductive LoxErrorResult where
  | interpreter (line : Nat) (message : String)
  | system (message : String)
  | controlFlowBreak
  | controlFlowReturn (value : Object)

/-- `LoxErrorResult::interpreter_error`. -/
def LoxErrorResult.interpreter_error (line : Nat) (message : String) :
    LoxErrorResult :=
  .interpreter line message

/-- `LoxErrorResult::break_signal`. -/
def LoxErrorResult.break_signal : LoxErrorResult := .controlFlowBreak

/-- `LoxErrorResult::return_signal`. -/
def LoxErrorResult.return_signal (value : Object) : LoxErrorResult :=
  .controlFlowReturn value

/-- `is_control_break` (tag test distinguishing the break signal from
every error, src/error.rs). -/
def LoxErrorResult.isControlBreak : LoxErrorResult → Bool
  | .controlFlowBreak => true
  | _ => false

/-- `is_control_return`. -/
def LoxErrorResult.isControlReturn : LoxErrorResult → Bool
  | .controlFlowReturn _ => true
  | _ => false

/-- Outcome of one embedded computation: `ok`, `err` (a `Result::Err`
carrying an error or control signal), `panic` (a Rust `panic!`, which
aborts), or `diverge` (out of fuel — the computation would still be
running). -/
inductive PRes (α : Type) where
  | ok (a : α)
  | err (e : LoxErrorResult)
  | panic
  | diverge

/-- `Environment` from src/environment.rs: one frame. The
`Rc<RefCell<Environment>>` references become indices into an environment
heap. -/
structure EnvData where
  values : List (String × Object)
  enclosing : Option Nat

abbrev Heap := List EnvData

/-- `Environment::new` — allocate a fresh global (no enclosing) frame,
returning the heap and the new reference. -/
def Environment.newEnv (h : Heap) : Heap × Nat :=
  (h ++ [⟨[], none⟩], h.length)

/-- `Environment::new_enclosing`. -/
def Environment.new_enclosing (h : Heap) (enclosing : Nat) : Heap × Nat :=
  (h ++ [⟨[], some enclosing⟩], h.length)

/-- `Environment::define` — unconditional insert into the frame `r`
(undefined on a dangling reference, which `Rc` makes unrepresentable). -/
def Environment.define (h : Heap) (r : Nat) (name : String) (value : Object) :
    Heap :=
  match h[r]? with
  | some env => h.set r { env with values := insertAssoc env.values name value }
  | none => h

/-- `Environment::get` — search frame `r`, then enclosing frames
recursively; error when the name is nowhere. The fuel bounds the chain
walk (a chain in a live heap is acyclic, so callers pass `h.length`). -/
def Environment.get (fuel : Nat) (h : Heap) (r : Nat) (name : Token) :
    PRes Object :=
  match fuel with
  | 0 => .diverge
  | fuel + 1 =>
    match h[r]? with
    | none => .panic
    | some env =>
      match lookupAssoc env.values name.lexeme with
      | some value => .ok value
      | none =>
        match env.enclosing with
        | some enclosing => Environment.get fuel h enclosing name
        | none =>
            .err (.interpreter_error name.line
              ("Undefined variable '" ++ name.lexeme ++ "'."))

/-- `Environment::assign` — walk the chain and overwrite the first frame
that already contains the name (returning `Ok(Object::Nil)` like the
source); fail with an undefined-variable error rather than create. -/
def Environment.assign (fuel : Nat) (h : Heap) (r : Nat) (name : Token)
    (value : Object) : Heap × PRes Object :=
  match fuel with
  | 0 => (h, .diverge)
  | fuel + 1 =>
    match h[r]? with
    | none => (h, .panic)
    | some env =>
      if (lookupAssoc env.values name.lexeme).isSome then
        (Environment.define h r name.lexeme value, .ok .nil)
      else
        match env.enclosing with
        | some enclosing => Environment.assign fuel h enclosing name value
        | none =>
            (h, .err (.interpreter_error name.line
              ("Undefined variable '" ++ name.lexeme ++ "'.")))

/-- `Environment::get_at` — walk exactly `distance` enclosing links
outward from `r`, then `get` from there; the source `panic!`s when the
chain is shorter than `distance`. -/
def Environment.get_at (fuel : Nat) (h : Heap) (r : Nat) (distance : Nat)
    (name : Token) : PRes Object :=
  match distance with
  | 0 => Environment.get fuel h r name
  | distance + 1 =>
    match h[r]? with
    | none => .panic
    | some env =>
      match env.enclosing with
      | some enclosing => Environment.get_at fuel h enclosing distance name
      | none => .panic

/-- `Environment::assign_at` — walk exactly `distance` links outward and
`define` there unconditionally (no error channel in the source: the
return type is `()`); `panic!` when the chain is shorter. -/
def Environment.assign_at (h : Heap) (r : Nat) (distance : Nat) (name : Token)
    (value : Object) : Heap × PRes Unit :=
  match distance with
  | 0 => (Environment.define h r name.lexeme value, .ok ())
  | distance + 1 =>
    match h[r]? with
    | none => (h, .panic)
    | some env =>
      match env.enclosing with
      | some enclosing =>
          Environment.assign_at h enclosing distance name value
      | none => (h, .panic)

/-- Rust's default `f64` → text (`write!("{num}")`). Modelled from the
spec: Rust's double-to-text prints integral doubles with no fractional
part (`2.0` → `2`); the shortest-round-trip decimal rendering of
non-integral values is not needed by any theorem here and is stood in for
by a `num/den` rendering of the rational. -/
def fmtNum (q : ℚ) : String :=
  if q.den = 1 then toString q.num
  else toString q.num ++ "/" ++ toString q.den

/-- `Display for LoxFunction` (src/lox_function.rs): `<fun NAME>`. -/
def LoxFunction.display (f : LoxFunction) : String :=
  "<fun " ++ f.declaration.name.lexeme ++ ">"

/-- `Display for LoxNativeFunction` (src/lox_native_function.rs):
`<fn native NAME>`. -/
def nativeFunctionDisplay (name : String) : String :=
  "<fn native " ++ name ++ ">"

/-- Keys of a method/field map joined with `", "` (the
`methods.join(", ")` of the `Display` impls; the embedding's map is a
list, so the join order is its insertion order). -/
def joinKeys {α : Type} (m : List (String × α)) : String :=
  String.intercalate ", " (m.map (·.1))

/-- `Display for LoxClass` (src/lox_class.rs):
`<class NAME> { methods: { m1, m2 } }>`. -/
def LoxClass.display (c : LoxClass) : String :=
  "<class " ++ c.name ++ "> \x7b methods: \x7b " ++ joinKeys c.methods
    ++ " \x7d \x7d>"

/-- `Display for LoxInstance` (src/lox_instance.rs):
`<NAME instance> { props: { ... }, methods: { ... } }>`. -/
def LoxInstanceData.display (d : LoxInstanceData) : String :=
  "<" ++ d.klass.name ++ " instance> \x7b props: \x7b "
    ++ joinKeys d.fields ++ " \x7d, methods: \x7b "
    ++ joinKeys d.klass.methods ++ " \x7d \x7d>"

/-- `Display for Object` (src/object.rs). A `String` renders WITH
surrounding quotes (`write!("\"{val}\"")`); an instance is displayed by
borrowing it from the instance heap `ih`. -/
def Object.display (ih : List LoxInstanceData) : Object → String
  | .number q => fmtNum q
  | .string s => "\"" ++ s ++ "\""
  | .boolean b => if b then "true" else "false"
  | .nil => "nil"
  | .function f => f.display
  | .nativeFunction name _ => nativeFunctionDisplay name
  | .classO c => c.display
  | .classInstance r =>
    match ih[r]? with
    | some d => d.display
    | none => ""

/-- `PartialEq for Object` (src/object.rs): structural on the scalar
variants and `Nil`; every other pair of variants — including two
functions, two classes or two instances, even the very same heap value —
falls to the catch-all arm and compares `false`. -/
def objEq : Object → Object → Bool
  | .string left, .string right => left = right
  | .number left, .number right => left = right
  | .boolean left, .boolean right => left = right
  | .nil, .nil => true
  | _, _ => false

/-- `Interpreter::is_truthy` (src/interpreter.rs). -/
def isTruthy : Object → Bool
  | .nil => false
  | .boolean b => b
  | _ => true

/-- `Sub for Object` (src/object.rs). -/
def objSub : Object → Object → Except String Object
  | .number left, .number right => .ok (.number (left - right))
  | _, _ => .error "Operands must be numbers for '-' operation."

/-- `Div for Object` (src/object.rs). The source computes the `f64`
quotient and errors when it `is_infinite() || is_nan()`; over `ℚ` that
guard fires exactly on a zero divisor — the IEEE-754 overflow and NaN
cases are outside this embedding (claim C6). -/
def objDiv : Object → Object → Except String Object
  | .number left, .number right =>
      if right = 0 then
        .error "Illegal expression. Division by zero is not allowed."
      else .ok (.number (left / right))
  | _, _ => .error "Operands must be numbers for '/' operation."

/-- `Mul for Object` (src/object.rs). -/
def objMul : Object → Object → Except String Object
  | .number left, .number right => .ok (.number (left * right))
  | _, _ => .error "Operands must be numbers for '*' operation."

/-- `Add for Object` (src/object.rs): numbers add, strings concatenate,
and a string/number mix concatenates the number's textual form. -/
def objAdd : Object → Object → Except String Object
  | .number left, .number right => .ok (.number (left + right))
  | .string left, .string right => .ok (.string (left ++ right))
  | .string left, .number right => .ok (.string (left ++ fmtNum right))
  | .number left, .string right => .ok (.string (fmtNum left ++ right))
  | _, _ => .error "Operands must be strings or numbers for '+' operation."

/-- `LoxInstance::get` (src/lox_instance.rs): fields first, then the
class's method map; a found method is returned as-is — the source never
calls `bind`, so the function's closure is unchanged and no frame binding
`this` is added. Otherwise an "Undefined property" error. -/
def LoxInstanceData.get (d : LoxInstanceData) (name : Token) : PRes Object :=
  match lookupAssoc d.fields name.lexeme with
  | some result => .ok result
  | none =>
    match d.klass.find_method name.lexeme with
    | some f => .ok (.function f)
    | none =>
        .err (.interpreter_error name.line
          ("Undefined property '" ++ name.lexeme ++ "'."))

/-- `LoxInstance::set` (src/lox_instance.rs). -/
def LoxInstanceData.set (d : LoxInstanceData) (name : Token)
    (value : Object) : LoxInstanceData :=
  { d with fields := insertAssoc d.fields name.lexeme value }

/-- `LoxFunction::bind` (src/lox_function.rs): allocate a frame enclosing
the function's closure, define `this` ↦ the instance there, and return
the function re-closed over that frame. -/
def LoxFunction.bind (h : Heap) (f : LoxFunction) (instance_ref : Nat) :
    Heap × LoxFunction :=
  let (h1, environment) := Environment.new_enclosing h f.closure
  let h2 := Environment.define h1 environment "this"
      (.classInstance instance_ref)
  (h2, .mk f.declaration environment f.is_initializer)

/-- `LoxFunction::arity`. -/
def LoxFunction.arity (f : LoxFunction) : Nat := f.declaration.params.length

/-- `LoxClass::arity` (src/lox_class.rs): the `init` method's arity when
present, else 0. -/
def LoxClass.arity (c : LoxClass) : Nat :=
  match c.find_method "init" with
  | some initializer => initializer.arity
  | none => 0

/-- `check_arity` shared by the callables: exact-arity check producing
the "Expected N arguments but got M." error. -/
def checkArity (arity args_len : Nat) (current_token : Token) :
    PRes Unit :=
  if args_len ≠ arity then
    .err (.interpreter_error current_token.line
      ("Expected " ++ toString arity ++ " arguments but got "
        ++ toString args_len ++ "."))
  else .ok ()

/-- `LoxClass::check_arity` uses a class-specific message. -/
def LoxClass.check_arity (c : LoxClass) (args_len : Nat)
    (current_token : Token) : PRes Unit :=
  if args_len ≠ c.arity then
    .err (.interpreter_error current_token.line
      ("Expected " ++ toString c.arity
        ++ " arguments in class initializer but got "
        ++ toString args_len ++ "."))
  else .ok ()

/-- The interpreter's mutable state (src/interpreter.rs `Interpreter`
plus the two heaps behind its `Rc<RefCell<_>>` references): the
environment heap, the instance heap, the current and global environment
references, the resolver's `locals` side table (expression uid ↦ scope
distance), and the text printed so far. -/
structure InterpState where
  envHeap : Heap
  instHeap : List LoxInstanceData
  environment : Nat
  globals : Nat
  locals : List (Nat × Nat)
  output : List String

/-- `Interpreter::look_up_variable` (src/interpreter.rs): use `get_at`
with the recorded distance when the side table has this expression's uid,
else read the global environment. -/
def lookUpVariable (s : InterpState) (name : Token) (uid : Nat) :
    PRes Object :=
  match lookupNatAssoc s.locals uid with
  | some distance =>
      Environment.get_at s.envHeap.length s.envHeap s.environment distance
        name
  | none => Environment.get s.envHeap.length s.envHeap s.globals name

/-- The arithmetic/comparison/equality dispatch of `visit_binary_expr`
(src/interpreter.rs), after both operands are evaluated. -/
def evalBinaryOp (operator : Token) (left right : Object) : PRes Object :=
  match operator.token_type with
  | .minus =>
    match objSub left right with
    | .ok result => .ok result
    | .error message => .err (.interpreter_error operator.line message)
  | .slash =>
    match objDiv left right with
    | .ok result => .ok result
    | .error message => .err (.interpreter_error operator.line message)
  | .star =>
    match objMul left right with
    | .ok result => .ok result
    | .error message => .err (.interpreter_error operator.line message)
  | .plus =>
    match objAdd left right with
    | .ok result => .ok result
    | .error message => .err (.interpreter_error operator.line message)
  | .greater =>
    match left, right with
    | .number l, .number r => .ok (.boolean (decide (l > r)))
    | _, _ =>
        .err (.interpreter_error operator.line
          "Operands must be numbers for '>' operation.")
  | .greaterEqual =>
    match left, right with
    | .number l, .number r => .ok (.boolean (decide (l ≥ r)))
    | _, _ =>
        .err (.interpreter_error operator.line
          "Operands must be numbers for '>=' operation.")
  | .less =>
    match left, right with
    | .number l, .number r => .ok (.boolean (decide (l < r)))
    | _, _ =>
        .err (.interpreter_error operator.line
          "Operands must be numbers for '<' operation.")
  | .lessEqual =>
    match left, right with
    | .number l, .number r => .ok (.boolean (decide (l ≤ r)))
    | _, _ =>
        .err (.interpreter_error operator.line
          "Operands must be numbers for '<=' operation.")
  | .bangEqual => .ok (.boolean (!objEq left right))
  | .equalEqual => .ok (.boolean (objEq left right))
  | _ =>
      .err (.interpreter_error operator.line "Unsupported binary operation.")

/-- Bind each parameter to its positional argument in frame `r`
(`LoxFunction::call`'s parameter loop; `none` models the `arguments[idx]`
panic when there are fewer arguments than parameters — the caller has
already checked arity). Extra arguments are ignored, as in the source. -/
def bindParams (h : Heap) (r : Nat) :
    List Token → List Object → Option Heap
  | [], _ => some h
  | param :: params, arg :: args =>
      bindParams (Environment.define h r param.lexeme arg) r params args
  | _ :: _, [] => none

/-- Build the method map of a class declaration. Modelled from the spec
(§4.4 *Class*): a `LoxFunction` per method, closing over `closure` and
marked as initializer exactly when literally named `init`. (The
interpreter's own `visit_class_stmt` in src is an earlier stub that
builds a methodless class.) -/
def methodFunctions (closure : Nat) : List Stmt →
    List (String × LoxFunction)
  | [] => []
  | .functionS name params body :: rest =>
      (name.lexeme,
        LoxFunction.mk ⟨name, params, body⟩ closure (name.lexeme = "init"))
        :: methodFunctions closure rest
  | _ :: rest => methodFunctions closure rest

mutual

/-- Expression evaluation (the `ExprVisitor` impl of src/interpreter.rs;
the `This` case is modelled from the spec §4.4 — "resolved identically to
Variable using the resolver's side table" — because the src impl omits
`visit_this_expr`; `Set`/`Super` are likewise omitted there and modelled
as panics). -/
def evalExpr : Nat → Expr → InterpState → InterpState × PRes Object
  | 0, _, s => (s, .diverge)
  | fuel + 1, e, s =>
    match e with
    | .literal _ v => (s, .ok v.toObject)
    | .grouping _ inner => evalExpr fuel inner s
    | .unary _ operator right =>
      match evalExpr fuel right s with
      | (s1, .ok v) =>
        match operator.token_type with
        | .bang => (s1, .ok (.boolean (!isTruthy v)))
        | .minus =>
          match v with
          | .number q => (s1, .ok (.number (-q)))
          | _ =>
              (s1, .err (.interpreter_error operator.line
                "Operand must be a number."))
        | _ =>
            (s1, .err (.interpreter_error operator.line
              "Unsupported unary operator"))
      | other => other
    | .binary _ left operator right =>
      match evalExpr fuel left s with
      | (s1, .ok lv) =>
        match evalExpr fuel right s1 with
        | (s2, .ok rv) => (s2, evalBinaryOp operator lv rv)
        | other => other
      | other => other
    | .ternary _ condition then_branch else_branch =>
      match evalExpr fuel condition s with
      | (s1, .ok cv) =>
          if isTruthy cv then evalExpr fuel then_branch s1
          else evalExpr fuel else_branch s1
      | other => other
    | .logical _ left operator right =>
      match evalExpr fuel left s with
      | (s1, .ok lv) =>
          if operator.is .orKw then
            if isTruthy lv then (s1, .ok lv) else evalExpr fuel right s1
          else
            if !isTruthy lv then (s1, .ok lv) else evalExpr fuel right s1
      | other => other
    | .variable uid name => (s, lookUpVariable s name uid)
    | .assign uid name value =>
      match evalExpr fuel value s with
      | (s1, .ok v) =>
        match lookupNatAssoc s1.locals uid with
        | some distance =>
          match Environment.assign_at s1.envHeap s1.environment distance
              name v with
          | (h2, .ok _) => ({ s1 with envHeap := h2 }, .ok v)
          | (h2, .panic) => ({ s1 with envHeap := h2 }, .panic)
          | (h2, .err e) => ({ s1 with envHeap := h2 }, .err e)
          | (h2, .diverge) => ({ s1 with envHeap := h2 }, .diverge)
        | none =>
          match Environment.assign s1.envHeap.length s1.envHeap s1.globals
              name v with
          | (h2, .ok _) => ({ s1 with envHeap := h2 }, .ok v)
          | (h2, .err e) => ({ s1 with envHeap := h2 }, .err e)
          | (h2, .panic) => ({ s1 with envHeap := h2 }, .panic)
          | (h2, .diverge) => ({ s1 with envHeap := h2 }, .diverge)
      | other => other
    | .call _ callee paren arguments =>
      match evalExpr fuel callee s with
      | (s1, .ok calleeV) =>
        match evalArgs fuel arguments s1 with
        | (s2, .ok args) =>
          match calleeV with
          | .function f =>
            match checkArity f.arity args.length paren with
            | .ok _ => callFunction fuel f args s2
            | .err e => (s2, .err e)
            | .panic => (s2, .panic)
            | .diverge => (s2, .diverge)
          | .nativeFunction _ _ =>
            -- `LoxNativeFunction::arity` in src returns 0 regardless of the
            -- stored arity field; the host callback (clock) does IO and is
            -- not modelled.
            match checkArity 0 args.length paren with
            | .ok _ => (s2, .panic)
            | .err e => (s2, .err e)
            | .panic => (s2, .panic)
            | .diverge => (s2, .diverge)
          | .classO c =>
            match c.check_arity args.length paren with
            | .ok _ => callClass fuel c args s2
            | .err e => (s2, .err e)
            | .panic => (s2, .panic)
            | .diverge => (s2, .diverge)
          | _ =>
              (s2, .err (.interpreter_error paren.line
                "Can only call functions and classes."))
        | (s2, .err e) => (s2, .err e)
        | (s2, .panic) => (s2, .panic)
        | (s2, .diverge) => (s2, .diverge)
      | other => other
    | .get _ object name =>
      match evalExpr fuel object s with
      | (s1, .ok objV) =>
        match objV with
        | .classInstance r =>
          match s1.instHeap[r]? with
          | some d => (s1, d.get name)
          | none => (s1, .panic)
        | _ =>
            (s1, .err (.interpreter_error name.line
              "Only instances have properties."))
      | other => other
    | .thisE uid keyword => (s, lookUpVariable s keyword uid)
    | .set _ _ _ _ => (s, .panic)
    | .superE _ _ _ => (s, .panic)

/-- Left-to-right evaluation of a call's argument list. -/
def evalArgs : Nat → List Expr → InterpState →
    InterpState × PRes (List Object)
  | 0, _, s => (s, .diverge)
  | fuel + 1, es, s =>
    match es with
    | [] => (s, .ok [])
    | e :: rest =>
      match evalExpr fuel e s with
      | (s1, .ok v) =>
        match evalArgs fuel rest s1 with
        | (s2, .ok vs) => (s2, .ok (v :: vs))
        | (s2, .err er) => (s2, .err er)
        | (s2, .panic) => (s2, .panic)
        | (s2, .diverge) => (s2, .diverge)
      | (s1, .err er) => (s1, .err er)
      | (s1, .panic) => (s1, .panic)
      | (s1, .diverge) => (s1, .diverge)

/-- Statement execution (the `StmtVisitor` impl of src/interpreter.rs;
the `Class` case is modelled from the spec §4.4 — see
`methodFunctions`). -/
def execStmt : Nat → Stmt → InterpState → InterpState × PRes Unit
  | 0, _, s => (s, .diverge)
  | fuel + 1, stmt, s =>
    match stmt with
    | .expression e =>
      match evalExpr fuel e s with
      | (s1, .ok _) => (s1, .ok ())
      | (s1, .err er) => (s1, .err er)
      | (s1, .panic) => (s1, .panic)
      | (s1, .diverge) => (s1, .diverge)
    | .print e =>
      match evalExpr fuel e s with
      | (s1, .ok v) =>
          ({ s1 with output := s1.output ++ [Object.display s1.instHeap v] },
            .ok ())
      | (s1, .err er) => (s1, .err er)
      | (s1, .panic) => (s1, .panic)
      | (s1, .diverge) => (s1, .diverge)
    | .varS name initializer =>
      match initializer with
      | some init_value =>
        match evalExpr fuel init_value s with
        | (s1, .ok v) =>
          let h1 := Environment.define s1.envHeap s1.environment name.lexeme v
          ({ s1 with envHeap := h1 }, .ok ())
        | (s1, .err er) => (s1, .err er)
        | (s1, .panic) => (s1, .panic)
        | (s1, .diverge) => (s1, .diverge)
      | none =>
        let h1 := Environment.define s.envHeap s.environment name.lexeme .nil
        ({ s with envHeap := h1 }, .ok ())
    | .block statements =>
      let (h1, new_env) := Environment.new_enclosing s.envHeap s.environment
      executeBlock fuel statements new_env { s with envHeap := h1 }
    | .ifS condition then_branch else_branch =>
      match evalExpr fuel condition s with
      | (s1, .ok cv) =>
          if isTruthy cv then execStmt fuel then_branch s1
          else
            match else_branch with
            | some els => execStmt fuel els s1
            | none => (s1, .ok ())
      | (s1, .err er) => (s1, .err er)
      | (s1, .panic) => (s1, .panic)
      | (s1, .diverge) => (s1, .diverge)
    | .whileS condition body =>
      match evalExpr fuel condition s with
      | (s1, .ok cv) =>
        if isTruthy cv then
          match execStmt fuel body s1 with
          | (s2, .ok _) => execStmt fuel (.whileS condition body) s2
          | (s2, .err er) =>
              if er.isControlBreak then (s2, .ok ()) else (s2, .err er)
          | (s2, .panic) => (s2, .panic)
          | (s2, .diverge) => (s2, .diverge)
        else (s1, .ok ())
      | (s1, .err er) => (s1, .err er)
      | (s1, .panic) => (s1, .panic)
      | (s1, .diverge) => (s1, .diverge)
    | .breakS _ => (s, .err LoxErrorResult.break_signal)
    | .functionS name params body =>
      -- src builds the function with the current environment as closure;
      -- only class initializers are ever marked is_initializer.
      let f : LoxFunction := .mk ⟨name, params, body⟩ s.environment false
      let h1 := Environment.define s.envHeap s.environment name.lexeme
          (.function f)
      ({ s with envHeap := h1 }, .ok ())
    | .returnS _ value =>
      match value with
      | some v =>
        match evalExpr fuel v s with
        | (s1, .ok rv) => (s1, .err (LoxErrorResult.return_signal rv))
        | (s1, .err er) => (s1, .err er)
        | (s1, .panic) => (s1, .panic)
        | (s1, .diverge) => (s1, .diverge)
      | none => (s, .err (LoxErrorResult.return_signal .nil))
    | .classS name _ methods =>
      let h0 := Environment.define s.envHeap s.environment name.lexeme .nil
      let s1 := { s with envHeap := h0 }
      let klass := LoxClass.mk name.lexeme none
          (methodFunctions s1.environment methods)
      match Environment.assign s1.envHeap.length s1.envHeap s1.environment
          name (.classO klass) with
      | (h2, .ok _) => ({ s1 with envHeap := h2 }, .ok ())
      | (h2, .err er) => ({ s1 with envHeap := h2 }, .err er)
      | (h2, .panic) => ({ s1 with envHeap := h2 }, .panic)
      | (h2, .diverge) => ({ s1 with envHeap := h2 }, .diverge)

/-- `try_for_each` over a statement list: stop at the first
error/panic/divergence. -/
def execStmts : Nat → List Stmt → InterpState → InterpState × PRes Unit
  | 0, _, s => (s, .diverge)
  | fuel + 1, stmts, s =>
    match stmts with
    | [] => (s, .ok ())
    | stmt :: rest =>
      match execStmt fuel stmt s with
      | (s1, .ok _) => execStmts fuel rest s1
      | (s1, .err er) => (s1, .err er)
      | (s1, .panic) => (s1, .panic)
      | (s1, .diverge) => (s1, .diverge)

/-- `Interpreter::execute_block` (src/interpreter.rs): remember the
current environment, switch to `new_env`, run the statements, then put
the previous environment back and forward the result. The restore runs on
the ok and err paths exactly as in the source (after `try_for_each`
returns); a panic unwinds past the plain assignment, and running out of
fuel means the block is still executing, so neither restores. -/
def executeBlock : Nat → List Stmt → Nat → InterpState →
    InterpState × PRes Unit
  | 0, _, _, s => (s, .diverge)
  | fuel + 1, statements, new_env, s =>
    let previous_env := s.environment
    match execStmts fuel statements { s with environment := new_env } with
    | (s1, .ok v) => ({ s1 with environment := previous_env }, .ok v)
    | (s1, .err er) => ({ s1 with environment := previous_env }, .err er)
    | (s1, .panic) => (s1, .panic)
    | (s1, .diverge) => (s1, .diverge)

/-- `LoxFunction::call` (src/lox_function.rs): new frame over the
closure, bind parameters, run the body as a block; on normal completion
an initializer reads `this` from its closure via `get_at(0, "this")` but
the value read is discarded — the call returns `Object::Nil` (and, on a
return signal, the signal's carried value), exactly as the source
does. -/
def callFunction : Nat → LoxFunction → List Object → InterpState →
    InterpState × PRes Object
  | 0, _, _, s => (s, .diverge)
  | fuel + 1, f, args, s =>
    let (h1, environment) := Environment.new_enclosing s.envHeap f.closure
    match bindParams h1 environment f.declaration.params args with
    | none => ({ s with envHeap := h1 }, .panic)
    | some h2 =>
      let s2 := { s with envHeap := h2 }
      let this_tok : Token := ⟨.thisKw, "this", .nilV, 0⟩
      match executeBlock fuel f.declaration.body environment s2 with
      | (s3, .ok _) =>
        if f.is_initializer then
          match Environment.get_at s3.envHeap.length s3.envHeap f.closure 0
              this_tok with
          | .ok _ => (s3, .ok .nil)
          | .err er => (s3, .err er)
          | .panic => (s3, .panic)
          | .diverge => (s3, .diverge)
        else (s3, .ok .nil)
      | (s3, .err (.controlFlowReturn value)) =>
        if f.is_initializer then
          match Environment.get_at s3.envHeap.length s3.envHeap f.closure 0
              this_tok with
          | .ok _ => (s3, .ok value)
          | .err er => (s3, .err er)
          | .panic => (s3, .panic)
          | .diverge => (s3, .diverge)
        else (s3, .ok value)
      | (s3, .err er) => (s3, .err er)
      | (s3, .panic) => (s3, .panic)
      | (s3, .diverge) => (s3, .diverge)

/-- `LoxClass::call` (src/lox_class.rs): allocate the instance, bind and
invoke `init` when present (propagating its errors, discarding its
value), and return the instance. -/
def callClass : Nat → LoxClass → List Object → InterpState →
    InterpState × PRes Object
  | 0, _, _, s => (s, .diverge)
  | fuel + 1, c, args, s =>
    let instance_ref := s.instHeap.length
    let s1 := { s with instHeap := s.instHeap ++ [⟨c, []⟩] }
    match c.find_method "init" with
    | some initializer =>
      let (h2, bound) := LoxFunction.bind s1.envHeap initializer instance_ref
      match callFunction fuel bound args { s1 with envHeap := h2 } with
      | (s3, .ok _) => (s3, .ok (.classInstance instance_ref))
      | (s3, .err er) => (s3, .err er)
      | (s3, .panic) => (s3, .panic)
      | (s3, .diverge) => (s3, .diverge)
    | none => (s1, .ok (.classInstance instance_ref))

end

/-- `Interpreter::interpret` (src/interpreter.rs): execute each
top-level statement in order; an `Err` is reported (collected here) and
execution continues with the next statement. A panic or running out of
fuel stops the run. -/
def interpret (fuel : Nat) : List Stmt → InterpState →
    InterpState × List LoxErrorResult
  | [], s => (s, [])
  | stmt :: rest, s =>
    match execStmt fuel stmt s with
    | (s1, .ok _) => interpret fuel rest s1
    | (s1, .err er) =>
      let (s2, reported) := interpret fuel rest s1
      (s2, er :: reported)
    | (s1, .panic) => (s1, [])
    | (s1, .diverge) => (s1, [])

/-- `Interpreter::new` (src/interpreter.rs): one global environment
holding the `clock` native; current = globals; empty side table. -/
def initState : InterpState :=
  { envHeap := [⟨[("clock", Object.nativeFunction "clock" 0)], none⟩]
    instHeap := []
    environment := 0
    globals := 0
    locals := []
    output := [] }

/-! ## Resolver (src/resolver.rs) -/

/-- `VariableInfo` from src/resolver.rs. -/
structure VariableInfo where
  is_defined : Bool
  is_used : Bool
  token : Option Token

abbrev Scope := List (String × VariableInfo)

/-- `FunctionType` from src/resolver.rs (this draft has no Initializer
variant). -/
inductive FunctionType where
  | noneFn | functionFn | methodFn
  deriving DecidableEq

/-- `ClassType` from src/resolver.rs. -/
inductive ClassType where
  | noneCl | classCl
  deriving DecidableEq

/-- The resolver's state: the scope stack (head = innermost, matching the
Rust `Vec` iterated in reverse), the tracked contexts, the error flag,
and the `locals` side table it writes into the interpreter via
`Interpreter::resolve`. -/
structure ResolverState where
  scopes : List Scope
  had_error : Bool
  current_function : FunctionType
  current_class : ClassType
  in_loop : Bool
  locals : List (Nat × Nat)

/-- `Resolver::new` over a fresh interpreter side table. -/
def ResolverState.initial : ResolverState :=
  ⟨[], false, .noneFn, .noneCl, false, []⟩

/-- `begin_scope`. -/
def beginScope (r : ResolverState) : ResolverState :=
  { r with scopes := [] :: r.scopes }

/-- `end_scope` (the unused-variable warnings it prints have no effect on
resolution state). -/
def endScope (r : ResolverState) : ResolverState :=
  { r with scopes := r.scopes.tail }

/-- `declare`: in the innermost scope (no-op at global, where the stack
is empty), flag a duplicate as an error and insert the name as
declared-but-not-defined. -/
def declare (r : ResolverState) (name : Token) : ResolverState :=
  match r.scopes with
  | [] => r
  | scope :: rest =>
    let dup := (lookupAssoc scope name.lexeme).isSome
    { r with
        had_error := r.had_error || dup
        scopes := insertAssoc scope name.lexeme ⟨false, false, some name⟩
          :: rest }

/-- `define`: mark the name defined in the innermost scope when
present. -/
def define (r : ResolverState) (name : Token) : ResolverState :=
  match r.scopes with
  | [] => r
  | scope :: rest =>
    let scope' := scope.map fun kv =>
      if kv.1 = name.lexeme then (kv.1, { kv.2 with is_defined := true })
      else kv
    { r with scopes := scope' :: rest }

/-- Mark a name used in one scope (`info.is_used = true`). -/
def markUsed (scope : Scope) (k : String) : Scope :=
  scope.map fun kv =>
    if kv.1 = k then (kv.1, { kv.2 with is_used := true }) else kv

/-- Innermost-outward walk of `resolve_local`: the first scope containing
the name gives the depth (number of scopes between the use and the
binding scope); that scope's entry is marked used. -/
def resolveLocalGo : List Scope → Nat → String →
    Option (Nat × List Scope)
  | [], _, _ => none
  | scope :: rest, depth, k =>
    if (lookupAssoc scope k).isSome then some (depth, markUsed scope k :: rest)
    else
      match resolveLocalGo rest (depth + 1) k with
      | some (d, rest') => some (d, scope :: rest')
      | none => none

/-- `resolve_local`: record (expression uid ↦ depth) in the interpreter's
side table when some scope on the stack contains the name; record nothing
otherwise (the name is then expected in the global environment). -/
def resolveLocal (r : ResolverState) (uid : Nat) (name : Token) :
    ResolverState :=
  match resolveLocalGo r.scopes 0 name.lexeme with
  | some (depth, scopes') =>
      { r with scopes := scopes'
               locals := insertNatAssoc r.locals uid depth }
  | none => r

/-- Declare-and-define a parameter list (`resolve_function`'s loop). -/
def declareParams (r : ResolverState) : List Token → ResolverState
  | [] => r
  | p :: ps => declareParams (define (declare r p) p) ps

mutual

/-- `StmtVisitor` impl of the resolver (src/resolver.rs). The fuel
bounds the recursion depth only (it exceeds the AST depth whenever it
exceeds the AST size, as `runResolver` arranges); resolution itself is
total. -/
def resolveStmt : Nat → Stmt → ResolverState → ResolverState
  | 0, _, r => r
  | fuel + 1, stmt, r =>
    match stmt with
    | .block statements =>
        endScope (resolveStmts fuel statements (beginScope r))
    | .expression e => resolveExpr fuel e r
    | .functionS name params body =>
        resolveFunctionDecl fuel params body .functionFn
          (define (declare r name) name)
    | .ifS condition then_branch else_branch =>
      let r1 := resolveStmt fuel then_branch (resolveExpr fuel condition r)
      match else_branch with
      | some els => resolveStmt fuel els r1
      | none => r1
    | .print e => resolveExpr fuel e r
    | .returnS _ value =>
      let r1 :=
        if r.current_function = .noneFn then { r with had_error := true }
        else r
      match value with
      | some v => resolveExpr fuel v r1
      | none => r1
    | .varS name initializer =>
      let r1 := declare r name
      let r2 :=
        match initializer with
        | some init_value => resolveExpr fuel init_value r1
        | none => r1
      define r2 name
    | .whileS condition body =>
      let nesting_loop := r.in_loop
      let r1 := resolveStmt fuel body
          (resolveExpr fuel condition { r with in_loop := true })
      { r1 with in_loop := nesting_loop }
    | .breakS _ =>
        if !r.in_loop then { r with had_error := true } else r
    | .classS name _ methods =>
      -- this draft's visit_class_stmt ignores the superclass expression
      let enclosing_class := r.current_class
      let r1 := { r with current_class := .classCl }
      let r2 := define (declare r1 name) name
      let r3 := beginScope r2
      let r4 :=
        match r3.scopes with
        | [] => r3
        | scope :: rest =>
          { r3 with scopes :=
              insertAssoc scope "this" ⟨true, false, none⟩ :: rest }
      let r5 := resolveMethods fuel methods r4
      endScope { r5 with current_class := enclosing_class }

/-- `Resolver::resolve` over a statement list. -/
def resolveStmts : Nat → List Stmt → ResolverState → ResolverState
  | 0, _, r => r
  | fuel + 1, stmts, r =>
    match stmts with
    | [] => r
    | stmt :: rest => resolveStmts fuel rest (resolveStmt fuel stmt r)

/-- The method loop of `visit_class_stmt`: each `Stmt::Function` is
resolved with function type Method (anything else makes the source
panic; the parser only ever produces function statements there). -/
def resolveMethods : Nat → List Stmt → ResolverState → ResolverState
  | 0, _, r => r
  | fuel + 1, stmts, r =>
    match stmts with
    | [] => r
    | .functionS _ params body :: rest =>
        resolveMethods fuel rest
          (resolveFunctionDecl fuel params body .methodFn r)
    | _ :: rest => resolveMethods fuel rest r

/-- `resolve_function`: swap in the function type, open the parameter
scope, declare-and-define the parameters, resolve the body in that same
scope, close it, restore the type. -/
def resolveFunctionDecl : Nat → List Token → List Stmt → FunctionType →
    ResolverState → ResolverState
  | 0, _, _, _, r => r
  | fuel + 1, params, body, function_type, r =>
    let enclosing_function := r.current_function
    let r1 := declareParams
        (beginScope { r with current_function := function_type }) params
    let r2 := endScope (resolveStmts fuel body r1)
    { r2 with current_function := enclosing_function }

/-- `ExprVisitor` impl of the resolver (src/resolver.rs; the src file
has no `visit_super_expr`, so `superE` resolves nothing). -/
def resolveExpr : Nat → Expr → ResolverState → ResolverState
  | 0, _, r => r
  | fuel + 1, e, r =>
    match e with
    | .assign uid name value =>
        resolveLocal (resolveExpr fuel value r) uid name
    | .binary _ left _ right =>
        resolveExpr fuel right (resolveExpr fuel left r)
    | .call _ callee _ arguments =>
        resolveExprs fuel arguments (resolveExpr fuel callee r)
    | .grouping _ inner => resolveExpr fuel inner r
    | .literal _ _ => r
    | .logical _ left _ right =>
        resolveExpr fuel right (resolveExpr fuel left r)
    | .unary _ _ right => resolveExpr fuel right r
    | .ternary _ condition then_branch else_branch =>
        resolveExpr fuel else_branch
          (resolveExpr fuel then_branch (resolveExpr fuel condition r))
    | .variable uid name =>
      let r1 :=
        match r.scopes with
        | [] => r
        | scope :: _ =>
          match lookupAssoc scope name.lexeme with
          | some info =>
              if !info.is_defined then { r with had_error := true } else r
          | none => r
      resolveLocal r1 uid name
    | .get _ object _ => resolveExpr fuel object r
    | .set _ object _ value =>
        resolveExpr fuel object (resolveExpr fuel value r)
    | .thisE uid keyword =>
        if r.current_class = .noneCl then { r with had_error := true }
        else resolveLocal r uid keyword
    | .superE _ _ _ => r

/-- The argument loop of `visit_call_expr`. -/
def resolveExprs : Nat → List Expr → ResolverState → ResolverState
  | 0, _, r => r
  | fuel + 1, es, r =>
    match es with
    | [] => r
    | e :: rest => resolveExprs fuel rest (resolveExpr fuel e r)

end

/-- Run the resolver over a program, as main.rs does before
interpretation; any fuel exceeding the AST depth lets resolution run to
completion. -/
def runResolver (fuel : Nat) (statements : List Stmt) : ResolverState :=
  resolveStmts fuel statements ResolverState.initial

/-! ## Scanner (src/scanner.rs) -/

/-- `Scanner` from src/scanner.rs, plus the lexical errors it reports
along the way (`e.report_column` prints them and scanning continues). -/
structure ScannerState where
  source : List Char
  tokens : List Token
  start : Nat
  current : Nat
  line : Nat
  column : Nat
  errors : List (Nat × String)

namespace Scanner

/-- `Scanner::new`. -/
def new (text : String) : ScannerState :=
  ⟨text.toList, [], 0, 0, 1, 0, []⟩

/-- `is_at_end`. -/
def isAtEnd (s : ScannerState) : Bool := s.current ≥ s.source.length

/-- `advance`: return the current character (the source indexes
`current - 1` when past the end) and step `current`/`column`. -/
def advance (s : ScannerState) : Char × ScannerState :=
  let c :=
    if s.current ≥ s.source.length then s.source.getD (s.current - 1) '\x00'
    else s.source.getD s.current '\x00'
  (c, { s with current := s.current + 1, column := s.column + 1 })

/-- `peek`. -/
def peek (s : ScannerState) : Char := s.source.getD s.current '\x00'

/-- `peek_next`. -/
def peekNext (s : ScannerState) : Char := s.source.getD (s.current + 1) '\x00'

/-- `match_next_with`. -/
def matchNextWith (s : ScannerState) (expected : Char) :
    Bool × ScannerState :=
  if isAtEnd s || s.source.getD s.current '\x00' ≠ expected then (false, s)
  else (true, { s with current := s.current + 1, column := s.column + 1 })

/-- The `source[start..current]` lexeme slice. -/
def lexemeSlice (s : ScannerState) : String :=
  String.mk ((s.source.drop s.start).take (s.current - s.start))

/-- `add_token_literal`. -/
def addTokenLiteral (s : ScannerState) (token_type : TokenType)
    (literal : LitValue) : ScannerState :=
  { s with tokens := s.tokens ++ [⟨token_type, lexemeSlice s, literal, s.line⟩] }

/-- `add_token`. -/
def addToken (s : ScannerState) (token_type : TokenType) : ScannerState :=
  addTokenLiteral s token_type .nilV

/-- `get_keyword` from src/scanner.rs — translated arm for arm; the
source has no `"break"` arm. -/
def getKeyword (word : String) : Option TokenType :=
  match word with
  | "and" => some .andKw
  | "class" => some .classKw
  | "else" => some .elseKw
  | "false" => some .falseKw
  | "for" => some .forKw
  | "fun" => some .funKw
  | "if" => some .ifKw
  | "nil" => some .nilKw
  | "or" => some .orKw
  | "print" => some .printKw
  | "return" => some .returnKw
  | "super" => some .superKw
  | "this" => some .thisKw
  | "true" => some .trueKw
  | "var" => some .varKw
  | "while" => some .whileKw
  | _ => none

/-- `is_alphanumeric` (a predicate on `peek`). -/
def isAlphanumericPeek (s : ScannerState) : Bool :=
  (peek s).isAlpha || (peek s).isDigit || peek s = '_'

/-- Digits of a decimal numeral to `Nat`. -/
def digitsToNat : List Char → Nat → Nat
  | [], acc => acc
  | c :: cs, acc => digitsToNat cs (acc * 10 + (c.toNat - 48))

/-- The `parse::<f64>()` of `add_number`, on the idealized rationals:
integer part plus fractional part (IEEE rounding is not modelled; no
theorem depends on a parsed numeric value). -/
def parseDecimal (cs : List Char) : ℚ :=
  let int_part := cs.takeWhile (· ≠ '.')
  let rest := cs.dropWhile (· ≠ '.')
  match rest with
  | [] => (digitsToNat int_part 0 : ℚ)
  | _ :: frac =>
      (digitsToNat int_part 0 : ℚ)
        + (digitsToNat frac 0 : ℚ) / ((10 : ℚ) ^ frac.length)

/-- The digit loop of `add_number` (fuel-bounded; `advance` moves
`current` forward each step). -/
def consumeDigits : Nat → ScannerState → ScannerState
  | 0, s => s
  | fuel + 1, s =>
      if (peek s).isDigit then consumeDigits fuel (advance s).2 else s

/-- `add_number`. -/
def addNumber (fuel : Nat) (s : ScannerState) : ScannerState :=
  let s1 := consumeDigits fuel s
  let s2 :=
    if peek s1 = '.' && (peekNext s1).isDigit then
      consumeDigits fuel (advance s1).2
    else s1
  let value := parseDecimal ((s2.source.drop s2.start).take
      (s2.current - s2.start))
  addTokenLiteral s2 .numberLit (.num value)

/-- The identifier loop of `add_identifier`. -/
def consumeAlphanumeric : Nat → ScannerState → ScannerState
  | 0, s => s
  | fuel + 1, s =>
      if isAlphanumericPeek s then consumeAlphanumeric fuel (advance s).2
      else s

/-- `add_identifier`: consume the word, then either emit the reserved
word's kind (with `true`/`false` carrying their Bool literal) or an
`Identifier` token carrying the word as its literal. -/
def addIdentifier (fuel : Nat) (s : ScannerState) : ScannerState :=
  let s1 := consumeAlphanumeric fuel s
  let value := String.mk ((s1.source.drop s1.start).take
      (s1.current - s1.start))
  match getKeyword value with
  | some t_type =>
    match t_type with
    | .trueKw => addTokenLiteral s1 .trueKw (.boolean true)
    | .falseKw => addTokenLiteral s1 .falseKw (.boolean false)
    | _ => addToken s1 t_type
  | none => addTokenLiteral s1 .identifier (.str value)

/-- `add_string`'s scan loop. -/
def consumeStringChars : Nat → ScannerState → ScannerState
  | 0, s => s
  | fuel + 1, s =>
    if peek s ≠ '"' && !isAtEnd s then
      let s1 :=
        if peek s = '\n' then { s with line := s.line + 1, column := 0 }
        else s
      consumeStringChars fuel (advance s1).2
    else s

/-- `add_string`: returns the reported lexical error on an unterminated
string. -/
def addString (fuel : Nat) (s : ScannerState) :
    ScannerState × Option (Nat × String) :=
  let s1 := consumeStringChars fuel s
  if isAtEnd s1 then (s1, some (s1.line, "Unterminated string."))
  else
    let s2 := (advance s1).2
    let value := String.mk ((s2.source.drop (s2.start + 1)).take
        (s2.current - 1 - (s2.start + 1)))
    (addTokenLiteral s2 .stringLit (.str value), none)

/-- The `//` line-comment loop. -/
def consumeLineComment : Nat → ScannerState → ScannerState
  | 0, s => s
  | fuel + 1, s =>
    if peek s ≠ '\n' && !isAtEnd s then consumeLineComment fuel (advance s).2
    else s

mutual

/-- `scan_block_comment`: nested block comments recurse; running off the
end reports "Unterminated block comment.". -/
def scanBlockComment : Nat → ScannerState →
    ScannerState × Option (Nat × String)
  | 0, s => (s, none)
  | fuel + 1, s =>
    if isAtEnd s then (s, some (s.line, "Unterminated block comment."))
    else
      let (m1, s1) := matchNextWith s '*'
      if m1 then
        let (m2, s2) := matchNextWith s1 '/'
        if m2 then (s2, none)
        else scanBlockCommentTail fuel s2
      else scanBlockCommentTail fuel s1

/-- The `else if`/`else` tail of one `scan_block_comment` iteration. -/
def scanBlockCommentTail : Nat → ScannerState →
    ScannerState × Option (Nat × String)
  | 0, s => (s, none)
  | fuel + 1, s =>
    let (m3, s3) := matchNextWith s '/'
    if m3 then
      let (m4, s4) := matchNextWith s3 '*'
      if m4 then
        match scanBlockComment fuel s4 with
        | (s5, none) => scanBlockComment fuel s5
        | (s5, some e) => (s5, some e)
      else scanBlockCommentStep fuel s4
    else scanBlockCommentStep fuel s3

/-- The final `else if self.advance() == '\n'` of one iteration, then
loop. -/
def scanBlockCommentStep : Nat → ScannerState →
    ScannerState × Option (Nat × String)
  | 0, s => (s, none)
  | fuel + 1, s =>
    let (c, s1) := advance s
    let s2 :=
      if c = '\n' then { s1 with line := s1.line + 1, column := 0 } else s1
    scanBlockComment fuel s2

end

/-- `scan_token`: dispatch on the consumed character; returns the
reported lexical error, if any. -/
def scanToken (fuel : Nat) (s0 : ScannerState) :
    ScannerState × Option (Nat × String) :=
  let (c, s) := advance s0
  if c = '(' then (addToken s .leftParen, none)
  else if c = ')' then (addToken s .rightParen, none)
  else if c = '{' then (addToken s .leftBrace, none)
  else if c = '}' then (addToken s .rightBrace, none)
  else if c = ',' then (addToken s .comma, none)
  else if c = '.' then (addToken s .dot, none)
  else if c = '-' then (addToken s .minus, none)
  else if c = '+' then (addToken s .plus, none)
  else if c = ':' then (addToken s .colon, none)
  else if c = ';' then (addToken s .semicolon, none)
  else if c = '*' then (addToken s .star, none)
  else if c = '?' then (addToken s .question, none)
  else if c = '!' then
    let (m, s1) := matchNextWith s '='
    (addToken s1 (if m then .bangEqual else .bang), none)
  else if c = '=' then
    let (m, s1) := matchNextWith s '='
    (addToken s1 (if m then .equalEqual else .equal), none)
  else if c = '<' then
    let (m, s1) := matchNextWith s '='
    (addToken s1 (if m then .lessEqual else .less), none)
  else if c = '>' then
    let (m, s1) := matchNextWith s '='
    (addToken s1 (if m then .greaterEqual else .greater), none)
  else if c = '/' then
    let (m, s1) := matchNextWith s '/'
    if m then (consumeLineComment fuel s1, none)
    else
      let (mb, s2) := matchNextWith s1 '*'
      if mb then scanBlockComment fuel s2
      else (addToken s2 .slash, none)
  else if c = ' ' || c = '\x0d' || c = '\t' then (s, none)
  else if c = '\n' then ({ s with line := s.line + 1, column := 0 }, none)
  else if c = '"' then addString fuel s
  else if c.isDigit then (addNumber fuel s, none)
  else if c.isAlpha || c = '_' then (addIdentifier fuel s, none)
  else (s, some (s.line, "Unexpected character."))

/-- The `scan_tokens` loop, collecting reported errors. -/
def scanLoop : Nat → ScannerState → ScannerState
  | 0, s => s
  | fuel + 1, s =>
    if isAtEnd s then s
    else
      let s1 := { s with start := s.current }
      match scanToken fuel s1 with
      | (s2, none) => scanLoop fuel s2
      | (s2, some e) => scanLoop fuel { s2 with errors := s2.errors ++ [e] }

/-- `Scanner::scan_tokens`: scan to the end, append the EOF sentinel,
and return the token list (the source returns `Ok(tokens)`
unconditionally; errors were reported along the way). -/
def scanTokens (text : String) : List Token × List (Nat × String) :=
  let s := scanLoop (text.length + 1) (new text)
  let s1 := { s with tokens := s.tokens ++ [(⟨.eof, "", .nilV, s.line⟩ : Token)] }
  (s1.tokens, s1.errors)

end Scanner

/-! ## Shared concrete fixtures -/

/-- An identifier token `C` (class name). -/
def tokC : Token := ⟨.identifier, "C", .str "C", 1⟩

/-- An identifier token `m` (method name). -/
def tokM : Token := ⟨.identifier, "m", .str "m", 1⟩

/-- An identifier token `c` (variable name). -/
def tokCv : Token := ⟨.identifier, "c", .str "c", 1⟩

/-- The `this` keyword token. -/
def tokThis : Token := ⟨.thisKw, "this", .nilV, 1⟩

/-- A closing-paren token (the `paren` of call expressions). -/
def tokParen : Token := ⟨.rightParen, ")", .nilV, 1⟩

/-- A `break` keyword token. -/
def tokBrk : Token := ⟨.breakKw, "break", .nilV, 1⟩

/-- A `return` keyword token. -/
def tokRet : Token := ⟨.returnKw, "return", .nilV, 1⟩

/-- An `init` identifier token. -/
def tokInit : Token := ⟨.identifier, "init", .str "init", 1⟩

/-! ## Helper lemmas -/

theorem lookupAssoc_insertAssoc_self {α : Type} (m : List (String × α))
    (k : String) (v : α) : lookupAssoc (insertAssoc m k v) k = some v := by
  induction m with
  | nil => simp [insertAssoc, lookupAssoc]
  | cons kv rest ih =>
    by_cases hk : kv.1 = k
    · simp [insertAssoc, hk, lookupAssoc]
    · simpa [insertAssoc, hk, lookupAssoc] using ih

/-! ## Claim C4 — `==`/`!=` equality semantics -/

/-- C4 counterexample: the claim says two Instances compare equal when
they are the same identity; in the source every Instance/Function/Class
pair falls to `PartialEq`'s catch-all arm, so even the very same heap
reference (`classInstance 0` compared with itself) is not equal. -/
theorem c4_counterexample_same_instance_compares_unequal :
    (Object.classInstance 0 = Object.classInstance 0)
      ∧ objEq (Object.classInstance 0) (Object.classInstance 0) = false :=
  ⟨rfl, rfl⟩

/-- C4 amended: `==` is structural for two Strings, two Numbers, two
Bools and two Nils, and false for every other pair — cross-variant pairs
and all Instance/Function/Class pairs, same identity included. -/
theorem c4_amended_equality_structural_scalars_heap_never_equal :
    ∀ a b : Object, objEq a b = true ↔
      ((∃ s, a = .string s ∧ b = .string s)
        ∨ (∃ q, a = .number q ∧ b = .number q)
        ∨ (∃ x, a = .boolean x ∧ b = .boolean x)
        ∨ (a = .nil ∧ b = .nil)) := by
  intro a b
  cases a <;> cases b <;> simp [objEq, eq_comm]

/-! ## Claim C5 — canonical textual forms -/

/-- C5 counterexample: the claim says a String prints without its
surrounding quotes; the source's `Display` writes `"{val}"`, so printing
the string `a` yields `"a"`, not `a`. -/
theorem c5_counterexample_string_prints_with_quotes :
    Object.display [] (Object.string "a") ≠ "a" := by decide

/-- C5 amended: the canonical forms the source actually produces —
Number via the default double-to-text (an integral double prints with no
fractional part, hence no trailing `.0`); String WITH surrounding
quotes; Bool `true`/`false`; Nil `nil`; Function `<fun NAME>`;
NativeFunction `<fn native NAME>`; Class
`<class NAME> { methods: { … } }>`; Instance
`<NAME instance> { props: { … }, methods: { … } }>`. -/
theorem c5_amended_canonical_display_forms :
    (∀ (ih : List LoxInstanceData) (n : ℤ),
        Object.display ih (.number (n : ℚ)) = toString n)
    ∧ (∀ (ih : List LoxInstanceData) (s : String),
        Object.display ih (.string s) = "\"" ++ s ++ "\"")
    ∧ (∀ ih : List LoxInstanceData,
        Object.display ih (.boolean true) = "true"
          ∧ Object.display ih (.boolean false) = "false"
          ∧ Object.display ih .nil = "nil")
    ∧ (∀ (ih : List LoxInstanceData) (f : LoxFunction),
        Object.display ih (.function f)
          = "<fun " ++ f.declaration.name.lexeme ++ ">")
    ∧ (∀ (ih : List LoxInstanceData) (name : String) (arity : Nat),
        Object.display ih (.nativeFunction name arity)
          = "<fn native " ++ name ++ ">")
    ∧ (∀ (ih : List LoxInstanceData) (c : LoxClass),
        Object.display ih (.classO c)
          = "<class " ++ c.name ++ "> \x7b methods: \x7b "
            ++ joinKeys c.methods ++ " \x7d \x7d>")
    ∧ (∀ d : LoxInstanceData,
        Object.display [d] (.classInstance 0)
          = "<" ++ d.klass.name ++ " instance> \x7b props: \x7b "
            ++ joinKeys d.fields ++ " \x7d, methods: \x7b "
            ++ joinKeys d.klass.methods ++ " \x7d \x7d>") := by
  refine ⟨?_, fun ih s => rfl, fun ih => ⟨rfl, rfl, rfl⟩,
    fun ih f => rfl, fun ih name arity => rfl, fun ih c => rfl,
    fun d => rfl⟩
  intro ih n
  simp [Object.display, fmtNum, Rat.den_intCast, Rat.num_intCast]

/-! ## Claim C9 — `break` as a reserved word -/

/-- C9: the scanner's keyword table (src/scanner.rs `get_keyword`) has no
`"break"` arm — even though src/parser.rs matches on a dedicated break
token kind — so lexing `break` yields an Identifier token (carrying the
word as its literal) followed by the EOF sentinel, not the break
reserved-word kind. -/
theorem c9_break_lexes_as_identifier :
    Scanner.getKeyword "break" = none
      ∧ Scanner.scanTokens "break"
        = ([⟨.identifier, "break", .str "break", 1⟩, ⟨.eof, "", .nilV, 1⟩],
            []) :=
  ⟨rfl, rfl⟩

/-! ## Claim C2 — property get and method binding -/

/-- The class `C { m() {} }` whose single method `m` closes over
environment 0. -/
def c2Class : LoxClass := .mk "C" none [("m", .mk ⟨tokM, [], []⟩ 0 false)]

/-- A one-frame heap: environment 0 is the class's defining environment
(a global frame with no `this` anywhere). -/
def c2Heap : Heap := [⟨[], none⟩]

/-- C2: reading property `m` on an instance of `c2Class` with no fields
returns the method with its closure UNCHANGED (still environment 0):
`LoxInstance::get` never calls `bind`. In the method's closure chain no
frame binds `this` (reading it errors), whereas `bind` — which the claim
says the read performs — would have produced a fresh frame mapping
`this` to the instance. Reading a name that is neither field nor method
produces the "Undefined property" error. -/
theorem c2_property_get_returns_unbound_method :
    LoxInstanceData.get ⟨c2Class, []⟩ tokM
        = .ok (.function (.mk ⟨tokM, [], []⟩ 0 false))
      ∧ Environment.get 1 c2Heap 0 tokThis
        = .err (.interpreter 1 "Undefined variable 'this'.")
      ∧ LoxFunction.bind c2Heap (.mk ⟨tokM, [], []⟩ 0 false) 0
        = (c2Heap ++ [⟨[("this", .classInstance 0)], some 0⟩],
            .mk ⟨tokM, [], []⟩ 1 false)
      ∧ LoxInstanceData.get ⟨c2Class, []⟩ tokCv
        = .err (.interpreter 1 "Undefined property 'c'.") :=
  ⟨rfl, rfl, rfl, rfl⟩

/-! ## Claim C3 — initializer return value -/

/-- An `init` taking no parameters with an empty body, marked
`is_initializer`, closing over environment 1 (the `bind`-created frame
mapping `this` to instance 0). -/
def c3InitEmpty : LoxFunction := .mk ⟨tokInit, [], []⟩ 1 true

/-- The same initializer with body `return;` (an early bare return). -/
def c3InitEarlyReturn : LoxFunction :=
  .mk ⟨tokInit, [], [.returnS tokRet none]⟩ 1 true

/-- Interpreter state at the moment an initializer is invoked:
environment 1 is the bound frame `this ↦ instance 0` over global frame
0; instance 0 exists. -/
def c3State : InterpState :=
  { envHeap := [⟨[], none⟩, ⟨[("this", .classInstance 0)], some 0⟩]
    instHeap := [⟨.mk "C" none [], []⟩]
    environment := 0
    globals := 0
    locals := []
    output := [] }

/-- C3: invoking an `is_initializer` function returns `Object::Nil` on
normal completion and the signal's carried value (again `Nil` for a bare
`return;`) on an early return — not the bound instance — even though the
`get_at(0, "this")` the source performs (and then discards) does find the
instance in the closure. -/
theorem c3_initializer_call_returns_nil_not_instance :
    (callFunction 5 c3InitEmpty [] c3State).2 = .ok Object.nil
      ∧ (callFunction 6 c3InitEarlyReturn [] c3State).2 = .ok Object.nil
      ∧ Environment.get_at 2 c3State.envHeap 1 0 ⟨.thisKw, "this", .nilV, 0⟩
        = .ok (.classInstance 0)
      ∧ Object.nil ≠ Object.classInstance 0 :=
  ⟨rfl, rfl, rfl, fun h => Object.noConfusion h⟩

/-! ## Claim C1 — resolver-recorded distances at evaluation time -/

/-- The program `class C { m() { print this; } } var c = C(); c.m();`
(uids assigned as the parser would: the `this` use is uid 1). -/
def c1Program : List Stmt :=
  [ .classS tokC none [.functionS tokM [] [.print (.thisE 1 tokThis)]],
    .varS tokCv (some (.call 2 (.variable 3 tokC) tokParen [])),
    .expression (.call 4 (.get 5 (.variable 6 tokCv) tokM) tokParen []) ]

/-- The interpreter state after resolution: `initState` carrying the
side table the resolver produced for `c1Program`. -/
def c1State : InterpState :=
  { initState with locals := (runResolver 20 c1Program).locals }

/-- C1: the resolver accepts `c1Program` (no resolver error) and records
distance 1 for the `this` expression (uid 1), yet evaluating the program
makes `look_up_variable`'s `get_at(1, "this")` walk to an environment
chain in which no frame binds `this` — the method was returned unbound by
`LoxInstance::get` — so the lookup reports the runtime error
"Undefined variable 'this'." instead of returning a binding. -/
theorem c1_recorded_distance_lookup_fails :
    (runResolver 20 c1Program).had_error = false
      ∧ lookupNatAssoc (runResolver 20 c1Program).locals 1 = some 1
      ∧ (interpret 20 c1Program c1State).2
        = [.interpreter 1 "Undefined variable 'this'."] :=
  ⟨rfl, rfl, rfl⟩

/-! ## Claim C8 — `execute_block` restores the current environment -/

/-- C8: on every exit path the source's `execute_block` reaches — normal
completion (`ok`) or an `Err` carrying a runtime error, a break signal or
a return signal — the interpreter's current-environment pointer after the
block equals the one current before entry. (A Rust `panic!` unwinds past
the restoring assignment and aborts, and out-of-fuel means the block is
still running; both are excluded exactly as in the source.) -/
theorem c8_execute_block_restores_environment :
    ∀ (fuel : Nat) (stmts : List Stmt) (new_env : Nat) (s s' : InterpState)
      (r : PRes Unit),
      executeBlock fuel stmts new_env s = (s', r) →
      r ≠ PRes.panic → r ≠ PRes.diverge →
      s'.environment = s.environment := by
  intro fuel stmts new_env s s' r h hp hd
  cases fuel with
  | zero =>
    simp only [executeBlock] at h
    cases h
    exact absurd rfl hd
  | succ n =>
    simp only [executeBlock] at h
    rcases hb : execStmts n stmts { s with environment := new_env }
      with ⟨s1, r1⟩
    rw [hb] at h
    cases r1 with
    | ok v => cases h; rfl
    | err e => cases h; rfl
    | panic => cases h; exact absurd rfl hp
    | diverge => cases h; exact absurd rfl hd

/-- Witness for C8 at a concrete block: two statements under a fresh
frame, exiting through a break signal; the environment pointer is
restored. -/
theorem c8_witness :
    (executeBlock 3 [.breakS tokBrk] 0 initState).1.environment
      = initState.environment :=
  c8_execute_block_restores_environment 3 [.breakS tokBrk] 0 initState
    (executeBlock 3 [.breakS tokBrk] 0 initState).1
    (executeBlock 3 [.breakS tokBrk] 0 initState).2
    rfl (fun h => PRes.noConfusion h) (fun h => PRes.noConfusion h)

/-! ## Claim C7 — break signals and the enclosing while -/

/-- C7: (1) a break statement raises the break signal
(`Err(break_signal())`); (2) a while loop (including the while that `for`
desugars to) whose body execution raises an error tagged control-break
catches it: the loop terminates and completes with `Ok` in the body's
resulting state; (3) the signal propagates no further than the loop — any
control-break error escaping `visit_while_stmt` can only have come out of
a condition evaluation, never the body; (4) the signal is distinguished
from runtime errors by its tag and is not an `Interpreter` error. -/
theorem c7_break_caught_by_nearest_while :
    (∀ (fuel : Nat) (t : Token) (s : InterpState),
        execStmt (fuel + 1) (.breakS t) s = (s, .err .controlFlowBreak))
    ∧ (∀ (fuel : Nat) (c : Expr) (b : Stmt) (s s1 s2 : InterpState)
          (v : Object) (e : LoxErrorResult),
        evalExpr fuel c s = (s1, .ok v) → isTruthy v = true →
        execStmt fuel b s1 = (s2, .err e) → e.isControlBreak = true →
        execStmt (fuel + 1) (.whileS c b) s = (s2, .ok ()))
    ∧ (∀ (fuel : Nat) (c : Expr) (b : Stmt) (s s' : InterpState)
          (e : LoxErrorResult),
        execStmt fuel (.whileS c b) s = (s', .err e) →
        e.isControlBreak = true →
        ∃ (fuel' : Nat) (s0 : InterpState),
          fuel' < fuel ∧ evalExpr fuel' c s0 = (s', .err e))
    ∧ (LoxErrorResult.isControlBreak .controlFlowBreak = true
        ∧ ∀ (line : Nat) (msg : String),
            (LoxErrorResult.controlFlowBreak : LoxErrorResult)
              ≠ .interpreter line msg) := by
  refine ⟨fun fuel t s => rfl, ?_, ?_, rfl,
    fun line msg h => LoxErrorResult.noConfusion h⟩
  · intro fuel c b s s1 s2 v e hc hv hb he
    simp only [execStmt, hc, hv, hb, he, if_true]
  · intro fuel
    induction fuel with
    | zero =>
      intro c b s s' e h _
      simp only [execStmt] at h
      cases h
    | succ n ih =>
      intro c b s s' e h he
      simp only [execStmt] at h
      split at h
      · -- condition evaluated to `ok cv`
        rename_i s1 cv heq
        split at h
        · -- truthy: the body ran
          split at h
          · -- body ok: the loop iterated; apply the induction hypothesis
            rename_i s2 u heq2
            obtain ⟨fuel', s0, hlt, heq'⟩ := ih c b s2 s' e h he
            exact ⟨fuel', s0, Nat.lt_trans hlt (Nat.lt_succ_self n), heq'⟩
          · -- body err: either caught (contradiction with err result) or
            -- not a control break (contradiction with `he`)
            rename_i s2 er heq2
            split at h
            · cases h
            · rename_i hncb
              cases h
              exact absurd he hncb
          · cases h
          · cases h
        · cases h
      · -- condition evaluation itself returned the error: the escape hatch
        rename_i s1 er heq
        cases h
        exact ⟨n, s, Nat.lt_succ_self n, heq⟩
      · cases h
      · cases h

/-- Witness for C7's catch clause at the concrete loop
`while (true) break;`: the body raises the break signal and the while
completes with `Ok` (the signal does not escape). -/
theorem c7_witness :
    execStmt 2 (.whileS (.literal 0 (.boolean true)) (.breakS tokBrk))
        initState
      = (initState, .ok ()) :=
  c7_break_caught_by_nearest_while.2.1 1 (.literal 0 (.boolean true))
    (.breakS tokBrk) initState initState initState (.boolean true)
    .controlFlowBreak rfl rfl rfl rfl

/-! ## Claim C10 — `assign_at` creates, `assign` refuses to -/

/-- The walk of `Environment::assign` reaches the end of the chain with
no frame containing the key (so `assign` takes its error branch). -/
def chainUnbound : Nat → Heap → Nat → String → Bool
  | 0, _, _, _ => false
  | fuel + 1, h, r, k =>
    match h[r]? with
    | none => false
    | some env =>
      if (lookupAssoc env.values k).isSome then false
      else
        match env.enclosing with
        | some enclosing => chainUnbound fuel h enclosing k
        | none => true

/-- C10: `assign_at` with distance 0 unconditionally inserts the binding
into the target frame — afterwards the frame maps the name to the value,
with no precondition that any frame bound it before — and `assign_at`
never produces an error at any distance (its only non-ok outcome is the
too-short-chain panic); `assign`, by contrast, returns the
"Undefined variable" error and leaves the heap unchanged whenever no
frame in the chain binds the name. -/
theorem c10_assign_at_inserts_assign_refuses :
    (∀ (h : Heap) (r : Nat) (env : EnvData) (name : Token) (value : Object),
        h[r]? = some env →
        ∃ env', (Environment.assign_at h r 0 name value).1[r]? = some env'
          ∧ lookupAssoc env'.values name.lexeme = some value
          ∧ (Environment.assign_at h r 0 name value).2 = .ok ())
    ∧ (∀ (h : Heap) (r distance : Nat) (name : Token) (value : Object)
          (e : LoxErrorResult),
        (Environment.assign_at h r distance name value).2 ≠ .err e)
    ∧ (∀ (fuel : Nat) (h : Heap) (r : Nat) (name : Token) (value : Object),
        chainUnbound fuel h r name.lexeme = true →
        Environment.assign fuel h r name value
          = (h, .err (.interpreter name.line
              ("Undefined variable '" ++ name.lexeme ++ "'.")))) := by
  refine ⟨?_, ?_, ?_⟩
  · intro h r env name value hr
    refine ⟨{ env with
        values := insertAssoc env.values name.lexeme value }, ?_, ?_, rfl⟩
    · have hlt : r < h.length := (List.getElem?_eq_some_iff.mp hr).1
      simp [Environment.assign_at, Environment.define, hr,
        List.getElem?_set_self, hlt]
    · exact lookupAssoc_insertAssoc_self env.values name.lexeme value
  · intro h r distance name value e
    induction distance generalizing r with
    | zero => exact fun hc => PRes.noConfusion hc
    | succ d ih =>
      cases hr : h[r]? with
      | none => simp [Environment.assign_at, hr]
      | some env =>
        cases henc : env.enclosing with
        | some enclosing =>
          simpa only [Environment.assign_at, hr, henc] using ih enclosing
        | none => simp [Environment.assign_at, hr, henc]
  · intro fuel
    induction fuel with
    | zero =>
      intro h r name value hu
      simp [chainUnbound] at hu
    | succ n ih =>
      intro h r name value hu
      cases hr : h[r]? with
      | none => simp [chainUnbound, hr] at hu
      | some env =>
        cases hs : (lookupAssoc env.values name.lexeme).isSome with
        | true => simp [chainUnbound, hr, hs] at hu
        | false =>
          cases henc : env.enclosing with
          | some enclosing =>
            have hrec := ih h enclosing name value
              (by simpa [chainUnbound, hr, hs, henc] using hu)
            simpa only [Environment.assign, hr, hs, henc,
              Bool.false_eq_true, if_false] using hrec
          | none =>
            simp [Environment.assign, hr, hs, henc,
              LoxErrorResult.interpreter_error]

/-- Witness for C10: in a one-frame heap where nothing binds `c`,
`assign_at` at distance 0 inserts the binding (and returns ok), while
`assign` on the same heap errors. -/
theorem c10_witness :
    (∃ env', (Environment.assign_at [⟨[], none⟩] 0 0 tokCv
          (.number 1)).1[0]? = some env'
        ∧ lookupAssoc env'.values tokCv.lexeme = some (.number 1)
        ∧ (Environment.assign_at [⟨[], none⟩] 0 0 tokCv (.number 1)).2
          = .ok ())
    ∧ Environment.assign 1 [⟨[], none⟩] 0 tokCv (.number 1)
      = ([⟨[], none⟩],
          .err (.interpreter 1 "Undefined variable 'c'.")) :=
  ⟨c10_assign_at_inserts_assign_refuses.1 [⟨[], none⟩] 0 ⟨[], none⟩ tokCv
      (.number 1) rfl,
    c10_assign_at_inserts_assign_refuses.2.2 1 [⟨[], none⟩] 0 tokCv
      (.number 1) rfl⟩

end RLox
